import Mathlib

/-!
Verification of the release driver `src/bin/publish.py`:

```
  shutil.rmtree('dist', ignore_errors=True)
  os.system('tsc')
  shutil.copyfile('package.json', 'dist/package.json')

  os.system(' && '.join([
    'cd dist/',
    'npm publish --access public',
  ]))
```

The embedding models the filesystem as finite association data, the Python
library calls `shutil.rmtree`, `shutil.copyfile` and `os.system` with their
documented semantics as invoked here, and the shell execution of the
`&&`-joined publish command. External tools (`tsc`, `npm publish`) are
parameters of the environment, since their behavior is outside the driver.
-/

namespace Publish

/-- Paths are plain strings, relative to the project root. -/
abbrev Path := String

/-- Filesystem model: a finite list of (path, byte content) files and a finite
list of directory paths. Byte content is modelled as a string. -/
structure FS where
  files : List (Path × String)
  dirs : List Path
deriving DecidableEq

/-- Read a file: the content stored at the first entry for the path, if any. -/
def FS.readFile (fs : FS) (p : Path) : Option String :=
  (fs.files.find? (fun e => e.1 == p)).map (fun e => e.2)

/-- Whether a directory exists. -/
def FS.isDir (fs : FS) (p : Path) : Bool :=
  fs.dirs.contains p

/-- Write (create or overwrite) a file. -/
def FS.writeFile (fs : FS) (p : Path) (c : String) : FS :=
  { fs with files := (p, c) :: fs.files.filter (fun e => e.1 != p) }

/-- Whether the first character list is a prefix of the second. -/
def chStartsWith : List Char → List Char → Bool
  | [], _ => true
  | _ :: _, [] => false
  | a :: pre, b :: s => a == b && chStartsWith pre s

/-- A path lies inside the tree rooted at directory d: it is d itself or a
path under d. -/
def under (d p : Path) : Bool :=
  p == d || chStartsWith (d ++ "/").data p.data

/-- Remove the directory d and everything beneath it. -/
def FS.removeTree (fs : FS) (d : Path) : FS :=
  { files := fs.files.filter (fun e => !under d e.1),
    dirs := fs.dirs.filter (fun p => !under d p) }

/-- Split a character list at every slash; the first argument accumulates the
current component in reverse. -/
def splitSlash : List Char → List Char → List (List Char)
  | acc, '/' :: rest => acc.reverse :: splitSlash [] rest
  | acc, c :: rest => splitSlash (c :: acc) rest
  | acc, [] => [acc.reverse]

/-- Components of a path: `pathParts "dist/package.json" = ["dist", "package.json"]`. -/
def pathParts (p : Path) : List Path :=
  (splitSlash [] p.data).map String.mk

/-- Parent directory of a path: `dirname "dist/package.json" = "dist"`, and a
bare filename has parent `"."` (the current directory). -/
def dirname (p : Path) : Path :=
  let parts := pathParts p
  if parts.length ≤ 1 then "." else String.intercalate "/" parts.dropLast

/-- Final component of a path: `basename "dist/package.json" = "package.json"`. -/
def basename (p : Path) : Path :=
  ((pathParts p).getLast? ).getD p

/-- Semantics of `shutil.rmtree(p, ignore_errors=ig)` as invoked by the driver.
A missing directory raises FileNotFoundError; `osErr` models an operating
system failure during removal (for example permission denied), which raises
PermissionError. Per the Python documentation, when `ignore_errors` is true
errors resulting from failed removals are ignored. -/
def rmtree (p : Path) (ig : Bool) (osErr : Bool) (fs : FS) : Except String FS :=
  if fs.isDir p = false then
    if ig then .ok fs else .error "FileNotFoundError"
  else if osErr then
    if ig then .ok fs else .error "PermissionError"
  else
    .ok (fs.removeTree p)

/-- Semantics of `shutil.copyfile(src, dst)`: reading the source raises
FileNotFoundError when it is missing, and opening the destination for writing
raises FileNotFoundError when its parent directory does not exist; otherwise
the destination is created or overwritten with the source content. -/
def copyfile (src dst : Path) (fs : FS) : Except String FS :=
  match fs.readFile src with
  | none => .error "FileNotFoundError: src"
  | some content =>
    if dirname dst == "." || fs.isDir (dirname dst) then
      .ok (fs.writeFile dst content)
    else
      .error "FileNotFoundError: dst"

/-- Events observable during a run: shell-level command executions. -/
inductive Ev where
  | tscCall (exit : Int)
  | cdCall (ok : Bool)
  | npmCall (cwd : Path) (exit : Int)
deriving DecidableEq

/-- The four driver-level statements, in source order. -/
inductive Step where
  | rmtreeStep
  | buildStep
  | copyStep
  | publishStep
deriving DecidableEq

/-- Behavior of the external tools and of the operating system during the run:
the effect and exit status of `tsc`, the effect and exit status of
`npm publish --access public` (as a function of the directory it is run in),
and whether the operating system reports a removal failure at the
`rmtree` step. -/
structure Env where
  tscRun : FS → FS × Int
  npmRun : Path → FS → FS × Int
  rmErr : Bool

/-- State of a spawned shell: its own working directory and the filesystem. -/
structure Sh where
  cwd : Path
  fs : FS

/-- Resolve a path against a working directory. -/
def joinPath (base p : Path) : Path :=
  if base == "." then p else base ++ "/" ++ p

/-- Execute one shell command in state s, returning the new state, the exit
status and the events it produced. `cd dist/` succeeds exactly when the
target is an existing directory and changes only the shell's own working
directory; the external commands run with the shell's working directory. -/
def runShCmd (env : Env) (c : String) (s : Sh) : Sh × Int × List Ev :=
  if c == "tsc" then
    let r := env.tscRun s.fs
    (⟨s.cwd, r.1⟩, r.2, [.tscCall r.2])
  else if c == "cd dist/" then
    let t := joinPath s.cwd "dist"
    if s.fs.isDir t then (⟨t, s.fs⟩, 0, [.cdCall true])
    else (s, 1, [.cdCall false])
  else if c == "npm publish --access public" then
    let r := env.npmRun s.cwd s.fs
    (⟨s.cwd, r.1⟩, r.2, [.npmCall s.cwd r.2])
  else
    (s, 127, [])

/-- Execute a `&&` chain: each command runs only if every earlier command in
the chain exited with status 0. -/
def runShAnd (env : Env) (cs : List String) (s : Sh) : Sh × Int × List Ev :=
  match cs with
  | [] => (s, 0, [])
  | c :: rest =>
    let r := runShCmd env c s
    if r.2.1 == 0 then
      let r2 := runShAnd env rest r.1
      (r2.1, r2.2.1, r.2.2 ++ r2.2.2)
    else
      (r.1, r.2.1, r.2.2)

/-- Split a character list at every occurrence of the four-character shell
separator `" && "`; the first argument accumulates the current command in
reverse. -/
def splitSep : List Char → List Char → List (List Char)
  | acc, ' ' :: '&' :: '&' :: ' ' :: rest => acc.reverse :: splitSep [] rest
  | acc, c :: rest => splitSep (c :: acc) rest
  | acc, [] => [acc.reverse]

/-- How the shell tokenizes a command string into its `&&` chain. -/
def splitOnAnd (s : String) : List String :=
  (splitSep [] s.data).map String.mk

/-- Semantics of `os.system(cmd)`: spawn a shell whose working directory is a
copy of the caller's, run the `&&` chain in it, and return the final
filesystem, the exit status and the events. The caller's own working
directory is never affected. -/
def osSystem (env : Env) (cmd : String) (cwd : Path) (fs : FS) : FS × Int × List Ev :=
  let r := runShAnd env (splitOnAnd cmd) ⟨cwd, fs⟩
  (r.1.fs, r.2.1, r.2.2)

/-- The list the driver joins for the publish step, from lines 8-11 of the
source. -/
def publishCmdList : List String :=
  ["cd dist/", "npm publish --access public"]

/-- The command string passed to `os.system` at the publish step:
`' && '.join(['cd dist/', 'npm publish --access public'])`. -/
def publishCmd : String :=
  String.intercalate " && " publishCmdList

/-- Outcome of a driver run: final filesystem, the driver process's own final
working directory, the driver statements that were executed, the shell events,
and the uncaught exception that terminated the run, if any. -/
structure Result where
  fs : FS
  cwd : Path
  steps : List Step
  trace : List Ev
  exc : Option String
deriving DecidableEq

/-- The driver, line by line: `shutil.rmtree('dist', ignore_errors=True)`;
`os.system('tsc')`; `shutil.copyfile('package.json', 'dist/package.json')`;
`os.system(' && '.join(['cd dist/', 'npm publish --access public']))`.
An uncaught exception terminates the script; return values of `os.system`
are discarded. The driver process's working directory is the project root
`"."` and nothing in the script changes it. -/
def runDriver (env : Env) (fs0 : FS) : Result :=
  let cwd : Path := "."
  match rmtree "dist" true env.rmErr fs0 with
  | .error e => ⟨fs0, cwd, [.rmtreeStep], [], some e⟩
  | .ok fs1 =>
    let rb := osSystem env "tsc" cwd fs1
    match copyfile "package.json" "dist/package.json" rb.1 with
    | .error e =>
      ⟨rb.1, cwd, [.rmtreeStep, .buildStep, .copyStep], rb.2.2, some e⟩
    | .ok fs3 =>
      let rp := osSystem env publishCmd cwd fs3
      ⟨rp.1, cwd, [.rmtreeStep, .buildStep, .copyStep, .publishStep],
        rb.2.2 ++ rp.2.2, none⟩

/-- The filesystem after the removal step: the output directory tree is gone
when it existed and the operating system reported no failure; otherwise (the
directory was absent, or the failure was suppressed) the filesystem is
unchanged. -/
def afterRm (env : Env) (fs0 : FS) : FS :=
  if fs0.isDir "dist" && !env.rmErr then fs0.removeTree "dist" else fs0

/-- The filesystem after the build step. -/
def afterBuild (env : Env) (fs0 : FS) : FS :=
  (env.tscRun (afterRm env fs0)).1

/-- Exit status of the build step. -/
def buildExit (env : Env) (fs0 : FS) : Int :=
  (env.tscRun (afterRm env fs0)).2

/-- Concrete project root used as a witness: it contains only the manifest
`package.json` with the example content. -/
def cFS : FS :=
  ⟨[("package.json", "\x7b\x22name\x22:\x22x\x22,\x22version\x22:\x221.0.0\x22\x7d")], []⟩

/-- Concrete well-behaved environment: `tsc` creates the `dist` directory and
exits 0, `npm publish` changes nothing and exits 0, and the operating system
reports no removal failure. -/
def cEnv : Env :=
  { tscRun := fun fs => (⟨fs.files, "dist" :: fs.dirs⟩, 0),
    npmRun := fun _ fs => (fs, 0),
    rmErr := false }

/-- Same environment except that `tsc` exits with status 1. -/
def cEnvFail : Env :=
  { tscRun := fun fs => (⟨fs.files, "dist" :: fs.dirs⟩, 1),
    npmRun := fun _ fs => (fs, 0),
    rmErr := false }

/-- Same environment except that the operating system reports a removal
failure (for example permission denied) at the `rmtree` step. -/
def permEnv : Env :=
  { cEnv with rmErr := true }

/-- Concrete project root with a manifest and a stale output directory. -/
def distFS : FS :=
  ⟨[("package.json", "M"), ("dist/old.js", "x")], ["dist"]⟩

/-- Concrete project root with no manifest and no output directory. -/
def noManifestFS : FS :=
  ⟨[], []⟩

/-- The filesystem produced by a successful copy from `distFS`. -/
def fsW : FS :=
  distFS.writeFile "dist/package.json" "M"

theorem find?_filter_keep {α : Type} (p keep : α → Bool)
    (h : ∀ x, p x = true → keep x = true) :
    ∀ l : List α, (l.filter keep).find? p = l.find? p := by
  intro l
  induction l with
  | nil => rfl
  | cons a t ih =>
    cases hk : keep a with
    | true =>
      cases hp : p a with
      | true => simp [List.filter_cons, hk, List.find?_cons, hp]
      | false => simp [List.filter_cons, hk, List.find?_cons, hp, ih]
    | false =>
      have hp : p a = false := by
        cases hpa : p a
        · rfl
        · exact absurd (h a hpa) (by simp [hk])
      simp [List.filter_cons, hk, List.find?_cons, hp, ih]

theorem readFile_writeFile_self (fs : FS) (p : Path) (c : String) :
    (fs.writeFile p c).readFile p = some c := by
  simp [FS.writeFile, FS.readFile, List.find?_cons]

theorem readFile_writeFile_ne (fs : FS) (p : Path) (c : String) (q : Path)
    (h : q ≠ p) :
    (fs.writeFile p c).readFile q = fs.readFile q := by
  simp only [FS.writeFile, FS.readFile]
  rw [List.find?_cons_of_neg _ (by simp [Ne.symm h])]
  rw [find?_filter_keep]
  intro e he
  have he' : e.1 = q := by simpa using he
  simp only [he', bne_iff_ne, ne_eq]
  exact h

theorem readFile_removeTree_ne (fs : FS) (d q : Path) (h : under d q = false) :
    (fs.removeTree d).readFile q = fs.readFile q := by
  simp only [FS.removeTree, FS.readFile]
  rw [find?_filter_keep]
  intro e he
  have he' : e.1 = q := by simpa using he
  simp [he', h]

theorem isDir_writeFile (fs : FS) (p : Path) (c : String) (q : Path) :
    (fs.writeFile p c).isDir q = fs.isDir q := rfl

theorem rmtree_dist_eq (env : Env) (fs0 : FS) :
    rmtree "dist" true env.rmErr fs0 = .ok (afterRm env fs0) := by
  unfold rmtree afterRm
  cases hd : fs0.isDir "dist" with
  | false => simp [hd]
  | true =>
    cases he : env.rmErr with
    | true => simp [hd, he]
    | false => simp [hd, he]

theorem splitOnAnd_tsc : splitOnAnd "tsc" = ["tsc"] := by decide

theorem splitOnAnd_publish : splitOnAnd publishCmd = publishCmdList := by decide

theorem runShCmd_tsc (env : Env) (s : Sh) :
    runShCmd env "tsc" s =
      (⟨s.cwd, (env.tscRun s.fs).1⟩, (env.tscRun s.fs).2,
        [Ev.tscCall (env.tscRun s.fs).2]) := by
  unfold runShCmd
  simp

theorem runShCmd_cd (env : Env) (s : Sh) :
    runShCmd env "cd dist/" s =
      (if s.fs.isDir (joinPath s.cwd "dist") then
        (⟨joinPath s.cwd "dist", s.fs⟩, 0, [Ev.cdCall true])
      else (s, 1, [Ev.cdCall false])) := by
  unfold runShCmd
  rw [if_neg (by decide)]
  rw [if_pos (by decide)]

theorem runShCmd_npm (env : Env) (s : Sh) :
    runShCmd env "npm publish --access public" s =
      (⟨s.cwd, (env.npmRun s.cwd s.fs).1⟩, (env.npmRun s.cwd s.fs).2,
        [Ev.npmCall s.cwd (env.npmRun s.cwd s.fs).2]) := by
  unfold runShCmd
  rw [if_neg (by decide)]
  rw [if_neg (by decide)]
  rw [if_pos (by decide)]

theorem runShAnd_single (env : Env) (c : String) (s : Sh) :
    runShAnd env [c] s = runShCmd env c s := by
  unfold runShAnd
  cases hz : (runShCmd env c s).2.1 == 0 with
  | false => simp [hz]
  | true =>
    have h0 : (runShCmd env c s).2.1 = 0 := by simpa using hz
    simp only [hz, if_pos, runShAnd, List.append_nil]
    rw [← h0]

theorem osSystem_tsc (env : Env) (cwd : Path) (fs : FS) :
    osSystem env "tsc" cwd fs =
      ((env.tscRun fs).1, (env.tscRun fs).2, [Ev.tscCall (env.tscRun fs).2]) := by
  unfold osSystem
  rw [splitOnAnd_tsc, runShAnd_single, runShCmd_tsc]

theorem osSystem_publish (env : Env) (cwd : Path) (fs : FS) :
    osSystem env publishCmd cwd fs =
      if fs.isDir (joinPath cwd "dist") then
        ((env.npmRun (joinPath cwd "dist") fs).1,
          (env.npmRun (joinPath cwd "dist") fs).2,
          [Ev.cdCall true,
            Ev.npmCall (joinPath cwd "dist") (env.npmRun (joinPath cwd "dist") fs).2])
      else (fs, 1, [Ev.cdCall false]) := by
  unfold osSystem
  rw [splitOnAnd_publish]
  show (let r := runShAnd env ["cd dist/", "npm publish --access public"] ⟨cwd, fs⟩
    (r.1.fs, r.2.1, r.2.2)) = _
  unfold runShAnd
  rw [runShCmd_cd]
  cases hd : fs.isDir (joinPath cwd "dist") with
  | false => simp [hd]
  | true =>
    simp only [hd, if_pos]
    rw [runShAnd_single, runShCmd_npm]
    simp

theorem dirname_dpj : dirname "dist/package.json" = "dist" := by decide

theorem under_dist_pj : under "dist" "package.json" = false := by decide

theorem joinPath_root (p : Path) : joinPath "." p = p := by
  unfold joinPath
  rw [if_pos (by decide)]

theorem copyfile_pj_none (fs : FS) (h : fs.readFile "package.json" = none) :
    copyfile "package.json" "dist/package.json" fs =
      .error "FileNotFoundError: src" := by
  unfold copyfile
  rw [h]

theorem copyfile_pj_some (fs : FS) (c : String)
    (h : fs.readFile "package.json" = some c) :
    copyfile "package.json" "dist/package.json" fs =
      if fs.isDir "dist" then .ok (fs.writeFile "dist/package.json" c)
      else .error "FileNotFoundError: dst" := by
  unfold copyfile
  rw [h, dirname_dpj]
  rw [show (("dist" : Path) == ".") = false from by decide]
  cases hd : fs.isDir "dist" with
  | false => simp [hd]
  | true => simp [hd]

theorem runDriver_eq (env : Env) (fs0 : FS) :
    runDriver env fs0 =
      match copyfile "package.json" "dist/package.json" (afterBuild env fs0) with
      | .error e =>
          ⟨afterBuild env fs0, ".", [.rmtreeStep, .buildStep, .copyStep],
            [.tscCall (buildExit env fs0)], some e⟩
      | .ok fs3 =>
          if fs3.isDir "dist" then
            ⟨(env.npmRun "dist" fs3).1, ".",
              [.rmtreeStep, .buildStep, .copyStep, .publishStep],
              [.tscCall (buildExit env fs0), .cdCall true,
                .npmCall "dist" (env.npmRun "dist" fs3).2], none⟩
          else
            ⟨fs3, ".", [.rmtreeStep, .buildStep, .copyStep, .publishStep],
              [.tscCall (buildExit env fs0), .cdCall false], none⟩ := by
  unfold runDriver afterBuild buildExit
  simp only [rmtree_dist_eq, osSystem_tsc, osSystem_publish, joinPath_root]
  cases hc : copyfile "package.json" "dist/package.json" (env.tscRun (afterRm env fs0)).1 with
  | error e => rfl
  | ok fs3 =>
    cases hd : fs3.isDir "dist" with
    | false => simp [hd]
    | true => simp [hd]

/-- C1: After a run in which every step succeeds (in particular, no uncaught
exception terminated the driver), the output directory contains a file named
identically to the project-root manifest — `dist/package.json`, whose parent
is the output directory and whose filename equals the manifest's — and its
byte content equals that of the project-root manifest, provided the external
publish tool does not rewrite either manifest copy. -/
theorem C1_manifest_copied (env : Env) (fs0 : FS)
    (hnpm1 : ∀ d fs, ((env.npmRun d fs).1).readFile "package.json" =
      fs.readFile "package.json")
    (hnpm2 : ∀ d fs, ((env.npmRun d fs).1).readFile "dist/package.json" =
      fs.readFile "dist/package.json")
    (hok : (runDriver env fs0).exc = none) :
    dirname "dist/package.json" = "dist" ∧
    basename "dist/package.json" = basename "package.json" ∧
    ∃ c, (runDriver env fs0).fs.readFile "dist/package.json" = some c ∧
      (runDriver env fs0).fs.readFile "package.json" = some c := by
  refine ⟨by decide, by decide, ?_⟩
  rw [runDriver_eq] at hok ⊢
  cases hr : (afterBuild env fs0).readFile "package.json" with
  | none =>
    rw [copyfile_pj_none _ hr] at hok
    simp at hok
  | some c =>
    rw [copyfile_pj_some _ c hr] at hok ⊢
    cases hd : (afterBuild env fs0).isDir "dist" with
    | false =>
      simp only [hd, Bool.false_eq_true, if_false] at hok
      simp at hok
    | true =>
      simp only [hd, if_true]
      simp only [isDir_writeFile, hd, if_true]
      refine ⟨c, ?_, ?_⟩
      · rw [hnpm2, readFile_writeFile_self]
      · rw [hnpm1, readFile_writeFile_ne _ _ _ _ (by decide), hr]

/-- Witness for C1 at a concrete project root and a well-behaved environment. -/
theorem C1_manifest_copied_witness :
    (runDriver cEnv cFS).exc = none ∧
    ∃ c, (runDriver cEnv cFS).fs.readFile "dist/package.json" = some c ∧
      (runDriver cEnv cFS).fs.readFile "package.json" = some c :=
  ⟨by decide,
    (C1_manifest_copied cEnv cFS (fun _ _ => rfl) (fun _ _ => rfl) (by decide)).2.2⟩

/-- C2 counterexample: a run whose project root lacks the manifest executes
only three driver steps — the publish statement is never reached — so it is
not the case that every run executes exactly four steps. -/
theorem C2_four_steps_cex :
    (runDriver cEnv noManifestFS).steps ≠
      [Step.rmtreeStep, Step.buildStep, Step.copyStep, Step.publishStep] ∧
    (runDriver cEnv noManifestFS).steps =
      [Step.rmtreeStep, Step.buildStep, Step.copyStep] := by decide

/-- C2 amended: every run executes the driver statements in the fixed source
order — remove the output directory, build, copy the manifest, publish — with
no conditional selection among them: the executed steps are always an initial
segment of that four-step order, and any run that raises no uncaught
exception executes exactly the four steps in that order. -/
theorem C2_steps_in_order (env : Env) (fs0 : FS) :
    ((runDriver env fs0).steps =
        [Step.rmtreeStep, Step.buildStep, Step.copyStep, Step.publishStep] ∨
      (runDriver env fs0).steps =
        [Step.rmtreeStep, Step.buildStep, Step.copyStep]) ∧
    ((runDriver env fs0).exc = none →
      (runDriver env fs0).steps =
        [Step.rmtreeStep, Step.buildStep, Step.copyStep, Step.publishStep]) := by
  rw [runDriver_eq]
  cases hc : copyfile "package.json" "dist/package.json" (afterBuild env fs0) with
  | error e => exact ⟨Or.inr rfl, by simp⟩
  | ok fs3 =>
    cases hd : fs3.isDir "dist" with
    | false => simp [hd]
    | true => simp [hd]

/-- Witness for the amended C2: a successful concrete run executes exactly
the four steps in order. -/
theorem C2_steps_in_order_witness :
    (runDriver cEnv cFS).steps =
      [Step.rmtreeStep, Step.buildStep, Step.copyStep, Step.publishStep] :=
  (C2_steps_in_order cEnv cFS).2 (by decide)

/-- C3: if the manifest copy step fails on the state it is given (source
manifest missing or output directory missing), the failure is fatal — the run
ends with that uncaught exception after exactly three steps — and the publish
command is never invoked: the publish statement is not executed and npm runs
nowhere in the trace. -/
theorem C3_copy_failure_halts (env : Env) (fs0 : FS) (e : String)
    (h : copyfile "package.json" "dist/package.json" (afterBuild env fs0) =
      .error e) :
    (runDriver env fs0).exc = some e ∧
    (runDriver env fs0).steps = [Step.rmtreeStep, Step.buildStep, Step.copyStep] ∧
    Step.publishStep ∉ (runDriver env fs0).steps ∧
    ∀ d code, Ev.npmCall d code ∉ (runDriver env fs0).trace := by
  rw [runDriver_eq, h]
  refine ⟨rfl, rfl,
    show Step.publishStep ∉ [Step.rmtreeStep, Step.buildStep, Step.copyStep]
      from by decide, ?_⟩
  intro d code
  show Ev.npmCall d code ∉ [Ev.tscCall (buildExit env fs0)]
  simp

/-- Witness for C3: with no manifest in the project root, the copy fails and
the run halts with the publish statement never executed. -/
theorem C3_copy_failure_halts_witness :
    (runDriver cEnv noManifestFS).exc = some "FileNotFoundError: src" ∧
    Step.publishStep ∉ (runDriver cEnv noManifestFS).steps :=
  ⟨(C3_copy_failure_halts cEnv noManifestFS "FileNotFoundError: src" rfl).1,
    (C3_copy_failure_halts cEnv noManifestFS "FileNotFoundError: src" rfl).2.2.1⟩

/-- C4: the driver never inspects the build command's exit status: two
environments whose build tools have the same filesystem effect but arbitrary,
possibly different, exit statuses yield the same final filesystem, the same
executed steps and the same exception; and the driver always proceeds to the
manifest-copy step. -/
theorem C4_build_exit_ignored (env1 env2 : Env) (fs0 : FS)
    (hrm : env1.rmErr = env2.rmErr)
    (hnpm : env1.npmRun = env2.npmRun)
    (htsc : ∀ fs, (env1.tscRun fs).1 = (env2.tscRun fs).1) :
    (runDriver env1 fs0).fs = (runDriver env2 fs0).fs ∧
    (runDriver env1 fs0).steps = (runDriver env2 fs0).steps ∧
    (runDriver env1 fs0).exc = (runDriver env2 fs0).exc ∧
    Step.copyStep ∈ (runDriver env1 fs0).steps := by
  have hRm : afterRm env1 fs0 = afterRm env2 fs0 := by
    unfold afterRm
    rw [hrm]
  have hB : afterBuild env1 fs0 = afterBuild env2 fs0 := by
    unfold afterBuild
    rw [hRm, htsc]
  rw [runDriver_eq, runDriver_eq, hB, hnpm]
  cases hc : copyfile "package.json" "dist/package.json" (afterBuild env2 fs0) with
  | error e =>
    exact ⟨rfl, rfl, rfl,
      show Step.copyStep ∈ [Step.rmtreeStep, Step.buildStep, Step.copyStep]
        from by decide⟩
  | ok fs3 =>
    cases hd : fs3.isDir "dist" with
    | false => simp [hd]
    | true => simp [hd]

/-- Witness for C4: a build exiting 0 and a build exiting 1 with the same
filesystem effect give the same outcome, and the copy step runs. -/
theorem C4_build_exit_ignored_witness :
    (runDriver cEnv cFS).fs = (runDriver cEnvFail cFS).fs ∧
    Step.copyStep ∈ (runDriver cEnv cFS).steps :=
  ⟨(C4_build_exit_ignored cEnv cEnvFail cFS rfl rfl (fun _ => rfl)).1,
    (C4_build_exit_ignored cEnv cEnvFail cFS rfl rfl (fun _ => rfl)).2.2.2⟩

theorem buildStep_mem (env : Env) (fs0 : FS) :
    Step.buildStep ∈ (runDriver env fs0).steps := by
  rw [runDriver_eq]
  cases hc : copyfile "package.json" "dist/package.json" (afterBuild env fs0) with
  | error e =>
    show Step.buildStep ∈ [Step.rmtreeStep, Step.buildStep, Step.copyStep]
    decide
  | ok fs3 =>
    cases hd : fs3.isDir "dist" with
    | false => simp [hd]
    | true => simp [hd]

/-- C5 counterexample: with `ignore_errors=True` a removal failure other than
does-not-exist — the operating system reporting a failure such as permission
denied while `dist` exists — is also suppressed: `rmtree` returns success
rather than surfacing an error, and the driver run proceeds through all four
steps with no exception. -/
theorem C5_perm_error_suppressed_cex :
    distFS.isDir "dist" = true ∧
    rmtree "dist" true true distFS = .ok distFS ∧
    permEnv.rmErr = true ∧
    (runDriver permEnv distFS).exc = none ∧
    (runDriver permEnv distFS).steps =
      [Step.rmtreeStep, Step.buildStep, Step.copyStep, Step.publishStep] :=
  ⟨by decide, rfl, rfl, by decide, by decide⟩

/-- C5 amended: at the directory-removal step, because the source passes
`ignore_errors=True`, every removal failure is suppressed — the does-not-exist
error and any other removal failure such as permission denied alike: the
removal step never raises, and the driver always proceeds past it to the
build step. -/
theorem C5_rmtree_all_errors_suppressed (env : Env) (fs0 : FS) (osErr : Bool) :
    (∃ fs1, rmtree "dist" true osErr fs0 = .ok fs1) ∧
    Step.buildStep ∈ (runDriver env fs0).steps := by
  constructor
  · unfold rmtree
    cases hd : fs0.isDir "dist" with
    | false => exact ⟨fs0, by simp [hd]⟩
    | true =>
      cases osErr with
      | true => exact ⟨fs0, by simp [hd]⟩
      | false => exact ⟨fs0.removeTree "dist", by simp [hd]⟩
  · exact buildStep_mem env fs0

/-- C6: running the driver when no output directory exists raises nothing at
the removal step — the removal returns success leaving the filesystem as it
was — and the run proceeds to the build step. -/
theorem C6_absent_dist_tolerated (env : Env) (fs0 : FS)
    (h : fs0.isDir "dist" = false) :
    rmtree "dist" true env.rmErr fs0 = .ok fs0 ∧
    Step.buildStep ∈ (runDriver env fs0).steps := by
  constructor
  · unfold rmtree
    simp [h]
  · exact buildStep_mem env fs0

/-- Witness for C6: a project root with no `dist` directory. -/
theorem C6_absent_dist_tolerated_witness :
    rmtree "dist" true cEnv.rmErr cFS = .ok cFS ∧
    Step.buildStep ∈ (runDriver cEnv cFS).steps :=
  C6_absent_dist_tolerated cEnv cFS (by decide)

/-- C7: the manifest-copy step copies the project-root manifest into the
output directory under the same filename — the destination
`dist/package.json` has parent `dist` and the same filename as the source —
it fails exactly when the manifest is missing or the output directory does
not exist, and on success the destination holds exactly the source content
while every other file is untouched. -/
theorem C7_copyfile_spec (fs : FS) :
    dirname "dist/package.json" = "dist" ∧
    basename "dist/package.json" = basename "package.json" ∧
    ((∃ e, copyfile "package.json" "dist/package.json" fs = .error e) ↔
      (fs.readFile "package.json" = none ∨ fs.isDir "dist" = false)) ∧
    ∀ fs1, copyfile "package.json" "dist/package.json" fs = .ok fs1 →
      fs1.readFile "dist/package.json" = fs.readFile "package.json" ∧
      ∀ q, q ≠ "dist/package.json" → fs1.readFile q = fs.readFile q := by
  refine ⟨by decide, by decide, ?_, ?_⟩
  · cases hr : fs.readFile "package.json" with
    | none =>
      rw [copyfile_pj_none _ hr]
      constructor
      · intro _
        exact Or.inl rfl
      · intro _
        exact ⟨"FileNotFoundError: src", rfl⟩
    | some c =>
      rw [copyfile_pj_some _ c hr]
      cases hd : fs.isDir "dist" with
      | false =>
        simp only [hd, Bool.false_eq_true, if_false]
        constructor
        · intro _
          exact Or.inr trivial
        · intro _
          exact ⟨"FileNotFoundError: dst", rfl⟩
      | true =>
        simp only [hd, if_true]
        constructor
        · rintro ⟨e, he⟩
          exact Except.noConfusion he
        · rintro (h1 | h2)
          · exact Option.noConfusion h1
          · exact Bool.noConfusion h2
  · intro fs1 hok
    cases hr : fs.readFile "package.json" with
    | none =>
      rw [copyfile_pj_none _ hr] at hok
      exact Except.noConfusion hok
    | some c =>
      rw [copyfile_pj_some _ c hr] at hok
      cases hd : fs.isDir "dist" with
      | false =>
        rw [hd] at hok
        simp only [Bool.false_eq_true, if_false] at hok
        exact Except.noConfusion hok
      | true =>
        rw [hd] at hok
        simp only [if_true] at hok
        have hfs1 : fs1 = fs.writeFile "dist/package.json" c := by
          cases hok
          rfl
        subst hfs1
        constructor
        · rw [readFile_writeFile_self]
        · intro q hq
          exact readFile_writeFile_ne _ _ _ _ hq

/-- Witness for C7: a successful concrete copy placing the manifest content
into the output directory. -/
theorem C7_copyfile_spec_witness :
    copyfile "package.json" "dist/package.json" distFS = .ok fsW ∧
    fsW.readFile "dist/package.json" = distFS.readFile "package.json" :=
  ⟨rfl, ((C7_copyfile_spec distFS).2.2.2 fsW rfl).1⟩

/-- C8 counterexample: in a successful concrete run the publish command is
invoked — npm executes in the shell — yet the driver process's working
directory after the run is still the project root `"."`, not the output
directory: the publish step performs no process-wide working-directory
change of the driver. -/
theorem C8_no_process_chdir_cex :
    Ev.npmCall "dist" 0 ∈ (runDriver cEnv cFS).trace ∧
    (runDriver cEnv cFS).cwd = "." ∧
    (runDriver cEnv cFS).cwd ≠ "dist" := by decide

/-- C8 amended: the working-directory change of the publish step happens
inside the spawned shell, not in the driver process: the driver's working
directory is the project root after every run; whenever the publish command
executes it executes with the shell's working directory equal to the output
directory `dist`; the invoked command carries the public-access flag; and the
publish invocation is not gated on the success of prior steps — any run with
no uncaught exception executes the publish statement, whatever the build exit
status or removal outcome. -/
theorem C8_publish_shell_cwd (env : Env) (fs0 : FS) :
    (runDriver env fs0).cwd = "." ∧
    publishCmd = "cd dist/ && npm publish --access public" ∧
    (∀ d code, Ev.npmCall d code ∈ (runDriver env fs0).trace → d = "dist") ∧
    ((runDriver env fs0).exc = none →
      Step.publishStep ∈ (runDriver env fs0).steps) := by
  rw [runDriver_eq]
  cases hc : copyfile "package.json" "dist/package.json" (afterBuild env fs0) with
  | error e =>
    refine ⟨rfl, by decide, ?_, ?_⟩
    · intro d code hmem
      simp only [List.mem_singleton] at hmem
      exact Ev.noConfusion hmem
    · intro hnone
      exact Option.noConfusion hnone
  | ok fs3 =>
    cases hd : fs3.isDir "dist" with
    | false =>
      dsimp only
      rw [if_neg (by simp [hd])]
      refine ⟨rfl, by decide, ?_, ?_⟩
      · intro d code hmem
        simp only [List.mem_cons, List.not_mem_nil, or_false] at hmem
        rcases hmem with h | h
        · exact Ev.noConfusion h
        · exact Ev.noConfusion h
      · intro _
        show Step.publishStep ∈
          [Step.rmtreeStep, Step.buildStep, Step.copyStep, Step.publishStep]
        decide
    | true =>
      dsimp only
      rw [if_pos hd]
      refine ⟨rfl, by decide, ?_, ?_⟩
      · intro d code hmem
        simp only [List.mem_cons, List.not_mem_nil, or_false] at hmem
        rcases hmem with h | h | h
        · exact Ev.noConfusion h
        · exact Ev.noConfusion h
        · injection h with h1 h2
      · intro _
        show Step.publishStep ∈
          [Step.rmtreeStep, Step.buildStep, Step.copyStep, Step.publishStep]
        decide

/-- Witness for the amended C8 at a concrete successful run. -/
theorem C8_publish_shell_cwd_witness :
    (runDriver cEnv cFS).cwd = "." ∧
    Step.publishStep ∈ (runDriver cEnv cFS).steps :=
  ⟨(C8_publish_shell_cwd cEnv cFS).1,
    (C8_publish_shell_cwd cEnv cFS).2.2.2 (by decide)⟩

theorem run_final_reads (env : Env) (fs0 : FS)
    (htscPj : ∀ fs, ((env.tscRun fs).1).readFile "package.json" =
      fs.readFile "package.json")
    (htscDist : ∀ fs, ((env.tscRun fs).1).isDir "dist" = true)
    (hnpmPj : ∀ d fs, ((env.npmRun d fs).1).readFile "package.json" =
      fs.readFile "package.json")
    (hnpmDpj : ∀ d fs, ((env.npmRun d fs).1).readFile "dist/package.json" =
      fs.readFile "dist/package.json")
    (c : String) (hman : fs0.readFile "package.json" = some c) :
    (runDriver env fs0).fs.readFile "dist/package.json" = some c ∧
    (runDriver env fs0).fs.readFile "package.json" = some c := by
  have hrm : (afterRm env fs0).readFile "package.json" = some c := by
    unfold afterRm
    by_cases h : (fs0.isDir "dist" && !env.rmErr) = true
    · rw [if_pos h, readFile_removeTree_ne _ _ _ under_dist_pj, hman]
    · rw [if_neg h, hman]
  have hb : (afterBuild env fs0).readFile "package.json" = some c := by
    unfold afterBuild
    rw [htscPj, hrm]
  have hd : (afterBuild env fs0).isDir "dist" = true := by
    unfold afterBuild
    exact htscDist _
  rw [runDriver_eq, copyfile_pj_some _ c hb, if_pos hd]
  dsimp only
  rw [isDir_writeFile, if_pos hd]
  constructor
  · show ((env.npmRun "dist"
      ((afterBuild env fs0).writeFile "dist/package.json" c)).1).readFile
        "dist/package.json" = some c
    rw [hnpmDpj, readFile_writeFile_self]
  · show ((env.npmRun "dist"
      ((afterBuild env fs0).writeFile "dist/package.json" c)).1).readFile
        "package.json" = some c
    rw [hnpmPj, readFile_writeFile_ne _ _ _ _ (by decide), hb]

/-- C9: running the driver twice in succession yields the same final manifest
copy as running it once — the copy step is idempotent: with a manifest
present in the project root, the build tool recreating the output directory
and preserving the manifest, and the publish tool preserving both manifest
copies, the final `dist/package.json` of the second run is byte-identical to
that of the first, both equal to the manifest content. -/
theorem C9_second_run_same_copy (env : Env) (fs0 : FS)
    (htscPj : ∀ fs, ((env.tscRun fs).1).readFile "package.json" =
      fs.readFile "package.json")
    (htscDist : ∀ fs, ((env.tscRun fs).1).isDir "dist" = true)
    (hnpmPj : ∀ d fs, ((env.npmRun d fs).1).readFile "package.json" =
      fs.readFile "package.json")
    (hnpmDpj : ∀ d fs, ((env.npmRun d fs).1).readFile "dist/package.json" =
      fs.readFile "dist/package.json")
    (c : String) (hman : fs0.readFile "package.json" = some c) :
    (runDriver env (runDriver env fs0).fs).fs.readFile "dist/package.json" =
      (runDriver env fs0).fs.readFile "dist/package.json" ∧
    (runDriver env fs0).fs.readFile "dist/package.json" = some c := by
  obtain ⟨h1, h2⟩ := run_final_reads env fs0 htscPj htscDist hnpmPj hnpmDpj c hman
  obtain ⟨h1', _⟩ :=
    run_final_reads env (runDriver env fs0).fs htscPj htscDist hnpmPj hnpmDpj c h2
  exact ⟨by rw [h1', h1], h1⟩

/-- Witness for C9 at a concrete project root and a well-behaved environment. -/
theorem C9_second_run_same_copy_witness :
    (runDriver cEnv (runDriver cEnv cFS).fs).fs.readFile "dist/package.json" =
      (runDriver cEnv cFS).fs.readFile "dist/package.json" ∧
    (runDriver cEnv cFS).fs.readFile "dist/package.json" =
      some "\x7b\x22name\x22:\x22x\x22,\x22version\x22:\x221.0.0\x22\x7d" :=
  C9_second_run_same_copy cEnv cFS (fun _ => rfl) (fun _ => rfl)
    (fun _ _ => rfl) (fun _ _ => rfl)
    "\x7b\x22name\x22:\x22x\x22,\x22version\x22:\x221.0.0\x22\x7d" rfl

/-- C10: the publish invocation is the single shell command
`cd dist/ && npm publish --access public` — the `&&`-join of the two listed
commands — so by the shell's `&&` semantics the publish command executes only
if the directory change succeeds: started where the output directory does not
exist, the shell's `cd` fails, npm is never executed, the filesystem is
unchanged and the command exits nonzero, although the driver itself contains
no explicit branch. -/
theorem C10_publish_gated_on_cd (env : Env) (cwd : Path) (fs : FS)
    (h : fs.isDir (joinPath cwd "dist") = false) :
    publishCmd = "cd dist/ && npm publish --access public" ∧
    splitOnAnd publishCmd = publishCmdList ∧
    (osSystem env publishCmd cwd fs).2.2 = [Ev.cdCall false] ∧
    (∀ d code, Ev.npmCall d code ∉ (osSystem env publishCmd cwd fs).2.2) ∧
    (osSystem env publishCmd cwd fs).1 = fs ∧
    (osSystem env publishCmd cwd fs).2.1 = 1 := by
  rw [osSystem_publish]
  rw [if_neg (by simp [h])]
  refine ⟨by decide, by decide, rfl, ?_, rfl, rfl⟩
  intro d code hmem
  simp only [List.mem_singleton] at hmem
  exact Ev.noConfusion hmem

/-- Witness for C10: with no output directory, the publish command's events
are a failed `cd` only and npm never runs. -/
theorem C10_publish_gated_on_cd_witness :
    (osSystem cEnv publishCmd "." noManifestFS).2.2 = [Ev.cdCall false] ∧
    Ev.npmCall "dist" 0 ∉ (osSystem cEnv publishCmd "." noManifestFS).2.2 :=
  ⟨(C10_publish_gated_on_cd cEnv "." noManifestFS (by decide)).2.2.1,
    (C10_publish_gated_on_cd cEnv "." noManifestFS (by decide)).2.2.2.1 "dist" 0⟩

end Publish
